import Mathlib

/-!
Verification of the LD2412 serial driver (LD2412.cpp / LD2412.h) against its
natural-language specification.  The C++ code is shallowly embedded: machine
bytes are `Nat` values below 256, buffers are `List Nat` (or `Nat → Nat` for
the telemetry capture window), the serial transport is explicit state, and
undefined behaviour (out-of-bounds array reads) is modelled as `Option.none`.
-/

namespace LD2412

/-- Command/ack direction frame header `FD FC FB FA` (member `FRAME_HEADER`). -/
def FRAME_HEADER : List Nat := [0xFD, 0xFC, 0xFB, 0xFA]

/-- Command/ack direction frame footer `04 03 02 01` (member `FRAME_FOOTER`). -/
def FRAME_FOOTER : List Nat := [0x04, 0x03, 0x02, 0x01]

/-- Capacity of the shared capture buffer (`static constexpr int BUFFER_SIZE = 32`). -/
def BUFFER_SIZE : Nat := 32

/-- Write the bytes `xs` into list `buf` starting at index `i`
(sequential `buf[i++] = x`; writes beyond the end of `buf` are dropped by
`List.set`, callers establish bounds separately). -/
def writeAt : List Nat → Nat → List Nat → List Nat
  | buf, _, [] => buf
  | buf, i, x :: xs => writeAt (buf.set i x) (i + 1) xs

theorem writeAt_length (xs : List Nat) : ∀ (buf : List Nat) (i : Nat),
    (writeAt buf i xs).length = buf.length := by
  induction xs with
  | nil => intro buf i; rfl
  | cons x xs ih => intro buf i; simp [writeAt, ih]

theorem getD_set_self (l : List Nat) (i a : Nat) (h : i < l.length) :
    (l.set i a).getD i 0 = a := by
  induction l generalizing i with
  | nil => simp at h
  | cons b l ih =>
    cases i with
    | zero => rfl
    | succ j => simpa [List.set, List.getD] using ih j (by simpa using h)

theorem getD_set_ne (l : List Nat) (i j a : Nat) (h : i ≠ j) :
    (l.set i a).getD j 0 = l.getD j 0 := by
  induction l generalizing i j with
  | nil => simp [List.set]
  | cons b l ih =>
    cases i with
    | zero =>
      cases j with
      | zero => exact absurd rfl h
      | succ k => rfl
    | succ i2 =>
      cases j with
      | zero => rfl
      | succ k =>
        simpa [List.set, List.getD] using ih i2 k (fun hc => h (by rw [hc]))

theorem getD_take_of_lt (n : Nat) : ∀ (l : List Nat) (j : Nat), j < n →
    (List.take n l).getD j 0 = l.getD j 0 := by
  induction n with
  | zero => intro l j h; omega
  | succ n ih =>
    intro l j h
    cases l with
    | nil => rfl
    | cons b l =>
      cases j with
      | zero => rfl
      | succ k => simpa [List.getD] using ih l k (by omega)

theorem writeAt_getD_lt (xs : List Nat) : ∀ (buf : List Nat) (i j : Nat), j < i →
    (writeAt buf i xs).getD j 0 = buf.getD j 0 := by
  induction xs with
  | nil => intro buf i j _; rfl
  | cons x xs ih =>
    intro buf i j h
    rw [writeAt, ih (buf.set i x) (i + 1) j (by omega),
      getD_set_ne buf i j x (by omega)]

theorem writeAt_getD_ge (xs : List Nat) : ∀ (buf : List Nat) (i j : Nat),
    i + xs.length ≤ j → (writeAt buf i xs).getD j 0 = buf.getD j 0 := by
  induction xs with
  | nil => intro buf i j _; rfl
  | cons x xs ih =>
    intro buf i j h
    simp only [List.length_cons] at h
    rw [writeAt, ih (buf.set i x) (i + 1) j (by omega),
      getD_set_ne buf i j x (by omega)]

theorem writeAt_getD_mid (xs : List Nat) : ∀ (buf : List Nat) (i j : Nat),
    i ≤ j → j < i + xs.length → j < buf.length →
    (writeAt buf i xs).getD j 0 = xs.getD (j - i) 0 := by
  induction xs with
  | nil =>
    intro buf i j h1 h2
    exact absurd h2 (by simp; omega)
  | cons x xs ih =>
    intro buf i j h1 h2 h3
    rcases Nat.eq_or_lt_of_le h1 with heq | hlt
    · subst heq
      rw [writeAt, writeAt_getD_lt xs (buf.set i x) (i + 1) i (by omega),
        getD_set_self buf i x h3]
      simp
    · rw [writeAt, ih (buf.set i x) (i + 1) j (by omega)
        (by simp only [List.length_cons] at h2; omega) (by simpa using h3)]
      have hj : j - i = (j - (i + 1)) + 1 := by omega
      rw [hj]
      rfl

/-! ## sendCommand

`void LD2412::sendCommand(uint8_t* data)` writes, in order: the 4-byte
`FRAME_HEADER`, the two bytes of `data_len`, then `data_len[0]` bytes of
`data`, then the 4-byte `FRAME_FOOTER`.  Before writing it executes
`this->data_len[0] = sizeof(data);` where `data` is a pointer parameter, so
`data_len[0]` is the platform pointer size (2 on AVR, 4 on 32-bit, 8 on
64-bit) truncated to `uint8_t`, and `data_len[1]` stays `0x00`.
`ptrSize` is that platform constant; the model is faithful whenever
`ptrSize % 256 ≤ data.length` (otherwise the C++ reads past the array). -/
def sendCommandFrame (ptrSize : Nat) (data : List Nat) : List Nat :=
  FRAME_HEADER ++ [ptrSize % 256, 0] ++ List.take (ptrSize % 256) data ++ FRAME_FOOTER

/-- Modelled from the spec: the frame the spec says `sendCommand` writes for a
command id and payload: header, 2-byte little-endian length equal to
`1 + payload.length`, the command id byte, the payload bytes, footer. -/
def claimedFrame (id : Nat) (payload : List Nat) : List Nat :=
  FRAME_HEADER ++ [(1 + payload.length) % 256, ((1 + payload.length) / 256) % 256]
    ++ id :: payload ++ FRAME_FOOTER

/-- The 16-byte data array built by `setMotionSensitivity(40)`:
`{0x03, 0x00}` followed by fourteen `0x28` bytes. -/
def motionData40 : List Nat := 3 :: 0 :: List.replicate 14 40

/-- C1: the frame written by `sendCommand` does NOT follow the spec.  The
length field is the constant `sizeof(uint8_t*)` and only that many data bytes
are written: the frame is unchanged whenever the first `ptrSize` data bytes
agree (so it cannot depend on the actual payload length), and on every
plausible pointer size (2, 4, 8) the frame written for the 16-byte
set-motion-sensitivity data differs from the frame the claim specifies. -/
theorem sendCommand_length_field_constant :
    (∀ (ps : Nat) (d1 d2 : List Nat), List.take ps d1 = List.take ps d2 →
      sendCommandFrame ps d1 = sendCommandFrame ps d2) ∧
    sendCommandFrame 2 motionData40 ≠ claimedFrame 3 (0 :: List.replicate 14 40) ∧
    sendCommandFrame 4 motionData40 ≠ claimedFrame 3 (0 :: List.replicate 14 40) ∧
    sendCommandFrame 8 motionData40 ≠ claimedFrame 3 (0 :: List.replicate 14 40) := by
  refine ⟨?_, by decide, by decide, by decide⟩
  intro ps d1 d2 h
  have hle : ps % 256 ≤ ps := Nat.mod_le ps 256
  have h1 : List.take (ps % 256) d1 = List.take (ps % 256) d2 := by
    have e1 : List.take (ps % 256) d1 = List.take (ps % 256) (List.take ps d1) := by
      rw [List.take_take, Nat.min_eq_left hle]
    have e2 : List.take (ps % 256) d2 = List.take (ps % 256) (List.take ps d2) := by
      rw [List.take_take, Nat.min_eq_left hle]
    rw [e1, e2, h]
  simp [sendCommandFrame, h1]

/-- Witness for C1: a concrete instance of payload-independence. -/
theorem sendCommand_length_field_constant_witness :
    sendCommandFrame 2 [1, 2, 3] = sendCommandFrame 2 [1, 2, 9] :=
  sendCommand_length_field_constant.1 2 [1, 2, 3] [1, 2, 9] (by decide)

/-! ## getAck

`uint8_t* LD2412::getAck(uint8_t respData, uint8_t len)` busy-polls the
transport for `ACK_TIMEOUT` milliseconds, draining every available byte into
`this->buffer` while `i < BUFFER_SIZE`.  `avail` models the byte sequence that
arrives within the window, so the captured count is `min avail.length 32` and
any excess stays unread on the transport.  If at least `len` bytes were
captured the byte-by-byte validation loop runs; otherwise the function falls
through and returns `this->buffer` unvalidated. -/
def ackCapturedCount (avail : List Nat) : Nat := min avail.length BUFFER_SIZE

/-- The capture buffer after the drain loop: the first
`min avail.length 32` slots are overwritten, the rest keep their old bytes. -/
def ackCaptureBuf (buf avail : List Nat) : List Nat :=
  writeAt buf 0 (List.take BUFFER_SIZE avail)

/-- Outcome of evaluating one iteration of the validation loop body. -/
inductive AckCheck
  | ok
  | reject
  | ub
deriving DecidableEq

/-- One iteration of the `for (i=0; i<len; i++)` validation loop, with the
disjuncts evaluated in source order and short-circuited.  The footer clause is
the literal `len-4<i<len && buffer[i] != FRAME_FOOTER[i-(len-4)]`: the chained
comparison parses as `((len-4 < i) ? 1 : 0) < len`, and when that (always
true for the lengths used) lets the right-hand side run, the footer array is
indexed at `i - (len - 4)`, which is out of bounds — undefined behaviour,
returned as `AckCheck.ub` — unless `i` lies in the last four positions. -/
def ackClauseAt (buf : List Nat) (respData len i : Nat) : AckCheck :=
  if i < 4 ∧ buf.getD i 0 ≠ FRAME_HEADER.getD i 0 then .reject
  else if i = 4 ∧ buf.getD i 0 ≠ len - 12 then .reject
  else if i = 5 ∧ buf.getD i 0 ≠ 0 then .reject
  else if i = 6 ∧ buf.getD i 0 ≠ respData then .reject
  else if i = 7 ∧ buf.getD i 0 ≠ 1 then .reject
  else if (if len - 4 < i then 1 else 0) < len then
    (let idx : Int := (i : Int) - ((len : Int) - 4)
     if 0 ≤ idx ∧ idx < 4 then
       (if buf.getD i 0 ≠ FRAME_FOOTER.getD idx.toNat 0 then .reject else .ok)
     else .ub)
  else .ok

/-- The validation loop from index `i` with `k` iterations left:
`some true` means the loop ran to completion (the buffer is accepted),
`some false` means some iteration returned `nullptr`, `none` means an
iteration hit the out-of-bounds footer read (undefined behaviour). -/
def ackValidateFrom (buf : List Nat) (respData len : Nat) : Nat → Nat → Option Bool
  | _, 0 => some true
  | i, k + 1 =>
    match ackClauseAt buf respData len i with
    | .reject => some false
    | .ub => none
    | .ok => ackValidateFrom buf respData len (i + 1) k

/-- The whole validation loop of `getAck` over a captured buffer. -/
def ackValidate (buf : List Nat) (respData len : Nat) : Option Bool :=
  ackValidateFrom buf respData len 0 len

/-- `getAck` itself.  Result: `none` when the run hits undefined behaviour;
`some (r, buf2)` otherwise, where `buf2` is the capture buffer after the call
and `r` is `none` for a `nullptr` return and `some buf2` for a returned
buffer pointer.  Note the source only validates when `i >= len`; a short
read falls through to `return this->buffer`. -/
def getAckModel (buf avail : List Nat) (respData len : Nat) :
    Option (Option (List Nat) × List Nat) :=
  let buf2 := ackCaptureBuf buf avail
  if len ≤ ackCapturedCount avail then
    match ackValidate buf2 respData len with
    | none => none
    | some false => some (none, buf2)
    | some true => some (some buf2, buf2)
  else some (some buf2, buf2)

/-- C2: refuted as stated — on a short read (fewer than `len` bytes captured
before the timeout) `getAck` does not return `nullptr`: the `i >= len` guard
skips validation entirely and the function returns the capture buffer, stale
bytes included. -/
theorem getAck_short_read_returns_buffer (buf avail : List Nat) (respData len : Nat)
    (h : ackCapturedCount avail < len) :
    getAckModel buf avail respData len =
      some (some (ackCaptureBuf buf avail), ackCaptureBuf buf avail) := by
  unfold getAckModel
  rw [if_neg (by omega)]

/-- Witness for C2: a timeout with zero bytes arriving still returns the
(untouched) capture buffer, not `nullptr`. -/
theorem getAck_short_read_returns_buffer_witness :
    getAckModel (List.replicate 32 0) [] 255 18 =
      some (some (List.replicate 32 0), List.replicate 32 0) :=
  getAck_short_read_returns_buffer (List.replicate 32 0) [] 255 18 (by decide)

/-- Modelled from the spec (claim C3): validation accepts a buffer of at least
`len` bytes iff bytes 0-3 are the ack header, byte 4 is `len - 12`, byte 5 is
`0x00`, byte 6 is the expected command id, byte 7 is `0x01`, and the last four
positions `len-4 .. len-1` (and only those) hold the footer. -/
def ackValidateClaimed (buf : List Nat) (respData len : Nat) : Bool :=
  decide (buf.getD 0 0 = 0xFD ∧ buf.getD 1 0 = 0xFC ∧ buf.getD 2 0 = 0xFB ∧
    buf.getD 3 0 = 0xFA ∧ buf.getD 4 0 = len - 12 ∧ buf.getD 5 0 = 0 ∧
    buf.getD 6 0 = respData ∧ buf.getD 7 0 = 1 ∧
    buf.getD (len - 4) 0 = FRAME_FOOTER.getD 0 0 ∧
    buf.getD (len - 3) 0 = FRAME_FOOTER.getD 1 0 ∧
    buf.getD (len - 2) 0 = FRAME_FOOTER.getD 2 0 ∧
    buf.getD (len - 1) 0 = FRAME_FOOTER.getD 3 0)

/-- A perfectly valid 18-byte enable-config ack frame:
`FD FC FB FA 06 00 FF 01 00 00 00 00 00 00 04 03 02 01`. -/
def validAck18 : List Nat :=
  [0xFD, 0xFC, 0xFB, 0xFA, 0x06, 0x00, 0xFF, 0x01, 0, 0, 0, 0, 0, 0, 4, 3, 2, 1]

/-- C3: the claimed validation accepts the valid ack, but the code never
does: because the chained comparison `len-4<i<len` is always true, already at
`i = 0` the clause evaluates `buffer[0] != FRAME_FOOTER[-14]`, an
out-of-bounds read (undefined behaviour), so the claimed acceptance is never
established on a defined execution. -/
theorem getAck_validation_chained_comparison_ub :
    ackValidateClaimed validAck18 255 18 = true ∧
    ackValidate validAck18 255 18 = none := by
  exact ⟨by decide, by decide⟩

/-- C5 counterexample: the capture loop does not stop accepting bytes at
`expectedTotalLength`: with `len = 14` and 20 bytes available it captures all
20 bytes (its only bound is `BUFFER_SIZE = 32`). -/
theorem getAck_capture_not_bounded_by_expected_len :
    ¬ (ackCapturedCount (List.replicate 20 7) ≤ 14) := by
  decide

/-- C5 (amended): the capture loop stops at `BUFFER_SIZE = 32` (not at
`expectedTotalLength`), never writes past the 32-byte buffer (length is
preserved and slots from the captured count up keep their old bytes), and
when more than 32 bytes are available the excess is silently left unread —
`getAck` behaves exactly as if only the first 32 bytes had arrived, no
overflow Failure is raised. -/
theorem getAck_capture_bounded_by_buffer_size (buf avail : List Nat)
    (hb : buf.length = 32) :
    (ackCaptureBuf buf avail).length = 32 ∧
    ackCapturedCount avail ≤ 32 ∧
    (∀ j, j < ackCapturedCount avail →
      (ackCaptureBuf buf avail).getD j 0 = avail.getD j 0) ∧
    (∀ j, ackCapturedCount avail ≤ j →
      (ackCaptureBuf buf avail).getD j 0 = buf.getD j 0) ∧
    (∀ respData len, getAckModel buf avail respData len =
      getAckModel buf (List.take 32 avail) respData len) := by
  have hcc : ackCapturedCount avail = min avail.length 32 := rfl
  have hlen : (List.take BUFFER_SIZE avail).length = min avail.length 32 := by
    simp [BUFFER_SIZE, List.length_take, Nat.min_comm]
  refine ⟨by rw [ackCaptureBuf, writeAt_length, hb], ?_, ?_, ?_, ?_⟩
  · rw [hcc]
    exact Nat.min_le_right _ _
  · intro j hj
    rw [hcc] at hj
    rw [ackCaptureBuf, writeAt_getD_mid _ _ _ _ (Nat.zero_le j)
      (by rw [Nat.zero_add, hlen]; omega) (by omega)]
    simp only [Nat.sub_zero]
    exact getD_take_of_lt BUFFER_SIZE avail j (by simp only [BUFFER_SIZE]; omega)
  · intro j hj
    rw [hcc] at hj
    rw [ackCaptureBuf, writeAt_getD_ge _ _ _ _ (by rw [Nat.zero_add, hlen]; omega)]
  · intro respData len
    have e1 : ackCaptureBuf buf (List.take 32 avail) = ackCaptureBuf buf avail := by
      rw [ackCaptureBuf, ackCaptureBuf, BUFFER_SIZE, List.take_take]
      simp
    have e2 : ackCapturedCount (List.take 32 avail) = ackCapturedCount avail := by
      simp only [ackCapturedCount, BUFFER_SIZE, List.length_take]
      omega
    rw [getAckModel, getAckModel, e1, e2]

/-- Witness for C5: the amended bounds at a 40-byte arrival burst. -/
theorem getAck_capture_bounded_by_buffer_size_witness :
    (ackCaptureBuf (List.replicate 32 0) (List.replicate 40 7)).length = 32 ∧
    ackCapturedCount (List.replicate 40 7) ≤ 32 :=
  ⟨(getAck_capture_bounded_by_buffer_size (List.replicate 32 0)
      (List.replicate 40 7) (by decide)).1,
   (getAck_capture_bounded_by_buffer_size (List.replicate 32 0)
      (List.replicate 40 7) (by decide)).2.1⟩

/-! ## Command sessions

Command round trips are sequences of `sendCommand` / `getAck` calls against
one transport.  `WireState` records every byte written so far, the pending
receive script (`rx`: the byte batch each successive `getAck` call will find
available within its timeout window), and the shared capture buffer
`this->buffer`.  `ps` is the platform pointer size fed to `sendCommand`
(see `sendCommandFrame`). -/
structure WireState where
  written : List Nat
  rx : List (List Nat)
  buf : List Nat
deriving DecidableEq

/-- `sendCommand`: appends its frame to the transport write trace. -/
def sendCommandRun (ps : Nat) (data : List Nat) (st : WireState) : WireState :=
  ⟨st.written ++ sendCommandFrame ps data, st.rx, st.buf⟩

/-- `getAck` as a state transition: consumes the next receive batch and
updates the shared buffer; `none` when validation hits undefined behaviour. -/
def getAckRun (respData len : Nat) (st : WireState) :
    Option (Option (List Nat) × WireState) :=
  match getAckModel st.buf (st.rx.headD []) respData len with
  | none => none
  | some (r, buf2) => some (r, ⟨st.written, st.rx.tail, buf2⟩)

/-- The `sendCommand(data); ack = getAck(data[0], len); ack != nullptr &&
ack[8] == 0x00` pattern shared by every command in the source. -/
def exchangeRun (ps : Nat) (data : List Nat) (len : Nat) (st : WireState) :
    Option (Bool × WireState) :=
  match getAckRun (data.getD 0 0) len (sendCommandRun ps data st) with
  | none => none
  | some (none, st2) => some (false, st2)
  | some (some ack, st2) => some (decide (ack.getD 8 0 = 0), st2)

/-- `enableConfig()`: command data `{0xFF, 0x00, 0x01, 0x00}`, 18-byte ack. -/
def enableConfigRun (ps : Nat) (st : WireState) : Option (Bool × WireState) :=
  exchangeRun ps [0xFF, 0x00, 0x01, 0x00] 18 st

/-- `disableConfig()`: command data `{0xFE, 0x00}`, 18-byte ack. -/
def disableConfigRun (ps : Nat) (st : WireState) : Option (Bool × WireState) :=
  exchangeRun ps [0xFE, 0x00] 18 st

/-- `resetDeviceSettings()`: enable config, send `{0xA2, 0x00}` awaiting a
14-byte ack, always call `disableConfig` afterwards, return the body result. -/
def resetDeviceSettingsRun (ps : Nat) (st : WireState) : Option (Bool × WireState) :=
  match enableConfigRun ps st with
  | none => none
  | some (false, st1) => some (false, st1)
  | some (true, st1) =>
    match exchangeRun ps [0xA2, 0x00] 14 st1 with
    | none => none
    | some (r, st2) =>
      match disableConfigRun ps st2 with
      | none => none
      | some (_, st3) => some (r, st3)

theorem exchangeRun_written (ps : Nat) (d : List Nat) (len : Nat)
    (st : WireState) (b : Bool) (st2 : WireState)
    (h : exchangeRun ps d len st = some (b, st2)) :
    st2.written = st.written ++ sendCommandFrame ps d := by
  simp only [exchangeRun, getAckRun, sendCommandRun] at h
  cases hm : getAckModel st.buf (st.rx.headD []) (d.getD 0 0) len with
  | none => rw [hm] at h; exact absurd h (by simp)
  | some p =>
    rw [hm] at h
    obtain ⟨r, buf2⟩ := p
    cases r with
    | none =>
      simp only [Option.some.injEq, Prod.mk.injEq] at h
      rw [← h.2]
    | some a =>
      simp only [Option.some.injEq, Prod.mk.injEq] at h
      rw [← h.2]

/-- C6: the config-mode session shape of `resetDeviceSettings`.  If
`enableConfig` fails the call returns `false` having written only the
enable-config frame (the body command is never sent).  If `enableConfig`
succeeds, the body frame and then the disable-config frame are both written,
the disable exchange is awaited, and the overall result is exactly the body
exchange result `r` whatever the disable result `r2` was. -/
theorem resetDeviceSettings_config_session (ps : Nat) (st : WireState) :
    (∀ st1, enableConfigRun ps st = some (false, st1) →
      resetDeviceSettingsRun ps st = some (false, st1) ∧
      st1.written = st.written ++ sendCommandFrame ps [0xFF, 0x00, 0x01, 0x00]) ∧
    (∀ st1 r st2 r2 st3, enableConfigRun ps st = some (true, st1) →
      exchangeRun ps [0xA2, 0x00] 14 st1 = some (r, st2) →
      disableConfigRun ps st2 = some (r2, st3) →
      resetDeviceSettingsRun ps st = some (r, st3) ∧
      st2.written = st1.written ++ sendCommandFrame ps [0xA2, 0x00] ∧
      st3.written = st2.written ++ sendCommandFrame ps [0xFE, 0x00]) := by
  constructor
  · intro st1 h
    refine ⟨?_, exchangeRun_written ps [0xFF, 0x00, 0x01, 0x00] 18 st false st1 h⟩
    simp only [resetDeviceSettingsRun, h]
  · intro st1 r st2 r2 st3 h1 h2 h3
    refine ⟨?_, exchangeRun_written ps [0xA2, 0x00] 14 st1 r st2 h2,
      exchangeRun_written ps [0xFE, 0x00] 18 st2 r2 st3 h3⟩
    simp only [resetDeviceSettingsRun, h1, h2, h3]

/-- Receive script on which every exchange succeeds: each `getAck` sees an
empty arrival batch, so the (unvalidated, C2) returned buffer has status
byte `0`. -/
def wsA : WireState := ⟨[], [[], [], []], List.replicate 32 0⟩

/-- State whose stale buffer has a nonzero status byte, so the first
exchange reports failure. -/
def wsB : WireState := ⟨[], [], List.replicate 32 7⟩

/-- Witness for C6: both branches at concrete states. -/
theorem resetDeviceSettings_config_session_witness :
    (∃ stf, resetDeviceSettingsRun 2 wsA = some (true, stf)) ∧
    (∃ stf, resetDeviceSettingsRun 2 wsB = some (false, stf)) :=
  ⟨⟨_, ((resetDeviceSettings_config_session 2 wsA).2 _ true _ true _ rfl rfl rfl).1⟩,
   ⟨_, ((resetDeviceSettings_config_session 2 wsB).1 _ rfl).1⟩⟩

/-! ## setBaudRate -/

/-- The `switch (baud)` in `setBaudRate`: the selector written into `data[0]`
(overwriting the command id byte `0x05` the array was initialised with), or
`none` for the `default: return false` branch. -/
def baudSelector (baud : Int) : Option Nat :=
  if baud = 9600 then some 1
  else if baud = 19200 then some 2
  else if baud = 38400 then some 3
  else if baud = 57600 then some 4
  else if baud = 115200 then some 5
  else if baud = 230400 then some 6
  else if baud = 256000 then some 7
  else if baud = 460800 then some 8
  else none

/-- The enumerated baud table of the spec. -/
def baudTable : List Int :=
  [9600, 19200, 38400, 57600, 115200, 230400, 256000, 460800]

/-- `setBaudRate(int baud)`: on an unknown rate, `return false` before any
transport traffic; otherwise the usual config session with command data
`{selector, 0x00}` and a 14-byte ack (note: `data[0]` holds the selector,
not `0x05`). -/
def setBaudRateRun (ps : Nat) (baud : Int) (st : WireState) :
    Option (Bool × WireState) :=
  match baudSelector baud with
  | none => some (false, st)
  | some sel =>
    match enableConfigRun ps st with
    | none => none
    | some (false, st1) => some (false, st1)
    | some (true, st1) =>
      match exchangeRun ps [sel, 0] 14 st1 with
      | none => none
      | some (r, st2) =>
        match disableConfigRun ps st2 with
        | none => none
        | some (_, st3) => some (r, st3)

/-- C8: the rejection half of the claim holds — any rate outside the table
returns `false` with the wire state untouched (no bytes written, no receive
batch consumed) — but the frame half fails: for an accepted rate the command
data is `[selector, 0]`, so the byte at frame offset 6 (the command word
byte) is the selector (1 for 9600), not the command id `0x05` the claim
specifies. -/
theorem setBaudRate_rejects_unknown_and_overwrites_id :
    (∀ baud : Int, (baudSelector baud).isSome = true ↔ baud ∈ baudTable) ∧
    (∀ (ps : Nat) (st : WireState) (baud : Int), baudSelector baud = none →
      setBaudRateRun ps baud st = some (false, st)) ∧
    baudSelector 9600 = some 1 ∧
    (∀ (ps : Nat) (st st1 : WireState) r st2 r2 st3,
      enableConfigRun ps st = some (true, st1) →
      exchangeRun ps [1, 0] 14 st1 = some (r, st2) →
      disableConfigRun ps st2 = some (r2, st3) →
      setBaudRateRun ps 9600 st = some (r, st3) ∧
      st2.written = st1.written ++ sendCommandFrame ps [1, 0]) ∧
    (sendCommandFrame 2 [1, 0]).getD 6 0 = 1 ∧
    (sendCommandFrame 2 [1, 0]).getD 6 0 ≠ 5 := by
  refine ⟨?_, ?_, by decide, ?_, by decide, by decide⟩
  · intro baud
    simp only [baudSelector, baudTable]
    split_ifs with h1 h2 h3 h4 h5 h6 h7 h8 <;> simp_all
  · intro ps st baud h
    simp only [setBaudRateRun, h]
  · intro ps st st1 r st2 r2 st3 h1 h2 h3
    refine ⟨?_, exchangeRun_written ps [1, 0] 14 st1 r st2 h2⟩
    have hs : baudSelector 9600 = some 1 := by decide
    simp only [setBaudRateRun, hs, h1, h2, h3]

/-- Witness for C8: rejection of 12345 with untouched state, and the full
9600 session at a concrete state. -/
theorem setBaudRate_rejects_unknown_and_overwrites_id_witness :
    setBaudRateRun 2 12345 wsB = some (false, wsB) ∧
    (∃ stf, setBaudRateRun 2 9600 wsA = some (true, stf)) :=
  ⟨setBaudRate_rejects_unknown_and_overwrites_id.2.1 2 wsB 12345 (by decide),
   ⟨_, (setBaudRate_rejects_unknown_and_overwrites_id.2.2.2.1
      2 wsA _ true _ true _ rfl rfl rfl).1⟩⟩

/-! ## Sensitivity getters -/

/-- The scalar-minimum loop of `getMotionSensitivity` /
`getStaticSensitivity`: `int min = 100; for (i=10; i<24; i++) if (ack[i] <
min) min = ack[i];` — `minLoop ack i acc k` runs `k` iterations starting at
index `i` with accumulator `acc`. -/
def minLoop (ack : List Nat) : Nat → Nat → Nat → Nat
  | _, acc, 0 => acc
  | i, acc, k + 1 =>
    minLoop ack (i + 1) (if ack.getD i 0 < acc then ack.getD i 0 else acc) k

/-- The value the scalar sensitivity getters return on a status-0 ack. -/
def sensMinFold (ack : List Nat) : Nat := minLoop ack 10 100 14

theorem minLoop_le_acc (ack : List Nat) :
    ∀ (k i acc : Nat), minLoop ack i acc k ≤ acc := by
  intro k
  induction k with
  | zero => intro i acc; exact le_refl acc
  | succ k ih =>
    intro i acc
    rw [minLoop]
    refine le_trans (ih (i + 1) _) ?_
    split
    · omega
    · exact le_refl acc

theorem minLoop_le_elem (ack : List Nat) :
    ∀ (k i acc j : Nat), j < k → minLoop ack i acc k ≤ ack.getD (i + j) 0 := by
  intro k
  induction k with
  | zero => intro i acc j h; omega
  | succ k ih =>
    intro i acc j h
    cases j with
    | zero =>
      rw [minLoop]
      refine le_trans (minLoop_le_acc ack k (i + 1) _) ?_
      simp only [Nat.add_zero]
      split <;> omega
    | succ j2 =>
      rw [minLoop]
      have := ih (i + 1) (if ack.getD i 0 < acc then ack.getD i 0 else acc) j2
        (by omega)
      have harith : i + 1 + j2 = i + (j2 + 1) := by omega
      rwa [harith] at this

theorem minLoop_attained (ack : List Nat) :
    ∀ (k i acc : Nat), minLoop ack i acc k = acc ∨
      ∃ j, j < k ∧ minLoop ack i acc k = ack.getD (i + j) 0 := by
  intro k
  induction k with
  | zero => intro i acc; exact Or.inl rfl
  | succ k ih =>
    intro i acc
    rw [minLoop]
    rcases ih (i + 1) (if ack.getD i 0 < acc then ack.getD i 0 else acc) with
      h | ⟨j, hj, hv⟩
    · rw [h]
      split
      · exact Or.inr ⟨0, by omega, by simp⟩
      · exact Or.inl rfl
    · exact Or.inr ⟨j + 1, by omega, by rw [hv]; congr 1; omega⟩

/-- `getMotionSensitivity(RETURN_ARRAY_FALSE)`: enable config (on failure
`return false`, that is `0`), send `{0x13, 0x00}`, await a 28-byte ack; on a
status-0 ack return the minimum loop value, otherwise `-1`; `disableConfig`
runs before either return. -/
def getMotionSensitivityRun (ps : Nat) (st : WireState) :
    Option (Int × WireState) :=
  match enableConfigRun ps st with
  | none => none
  | some (false, st1) => some (0, st1)
  | some (true, st1) =>
    match getAckRun 0x13 28 (sendCommandRun ps [0x13, 0x00] st1) with
    | none => none
    | some (some ack, st2) =>
      if ack.getD 8 0 = 0 then
        match disableConfigRun ps st2 with
        | none => none
        | some (_, st3) => some ((sensMinFold ack : Nat), st3)
      else
        match disableConfigRun ps st2 with
        | none => none
        | some (_, st3) => some (-1, st3)
    | some (none, st2) =>
      match disableConfigRun ps st2 with
      | none => none
      | some (_, st3) => some (-1, st3)

/-- `getStaticSensitivity(RETURN_ARRAY_FALSE)`: identical but for command
`{0x14, 0x00}`. -/
def getStaticSensitivityRun (ps : Nat) (st : WireState) :
    Option (Int × WireState) :=
  match enableConfigRun ps st with
  | none => none
  | some (false, st1) => some (0, st1)
  | some (true, st1) =>
    match getAckRun 0x14 28 (sendCommandRun ps [0x14, 0x00] st1) with
    | none => none
    | some (some ack, st2) =>
      if ack.getD 8 0 = 0 then
        match disableConfigRun ps st2 with
        | none => none
        | some (_, st3) => some ((sensMinFold ack : Nat), st3)
      else
        match disableConfigRun ps st2 with
        | none => none
        | some (_, st3) => some (-1, st3)
    | some (none, st2) =>
      match disableConfigRun ps st2 with
      | none => none
      | some (_, st3) => some (-1, st3)

/-- C10: on a status-0 ack both scalar sensitivity getters return
`sensMinFold ack`, and that value is exactly the minimum of the fourteen
bytes at ack offsets 10..23 capped at 100: it never exceeds 100, is a lower
bound of all fourteen bytes, is attained at 100 or at one of the bytes, and
equals 100 whenever every byte exceeds 100. -/
theorem sensitivity_min_capped_at_100 :
    (∀ ack : List Nat, sensMinFold ack ≤ 100 ∧
      (∀ k, k < 14 → sensMinFold ack ≤ ack.getD (10 + k) 0) ∧
      (sensMinFold ack = 100 ∨
        ∃ k, k < 14 ∧ sensMinFold ack = ack.getD (10 + k) 0) ∧
      ((∀ k, k < 14 → 100 < ack.getD (10 + k) 0) → sensMinFold ack = 100)) ∧
    (∀ (ps : Nat) (st st1 : WireState) ack st2 r st3,
      enableConfigRun ps st = some (true, st1) →
      getAckRun 0x13 28 (sendCommandRun ps [0x13, 0x00] st1) = some (some ack, st2) →
      ack.getD 8 0 = 0 →
      disableConfigRun ps st2 = some (r, st3) →
      getMotionSensitivityRun ps st = some ((sensMinFold ack : Int), st3)) ∧
    (∀ (ps : Nat) (st st1 : WireState) ack st2 r st3,
      enableConfigRun ps st = some (true, st1) →
      getAckRun 0x14 28 (sendCommandRun ps [0x14, 0x00] st1) = some (some ack, st2) →
      ack.getD 8 0 = 0 →
      disableConfigRun ps st2 = some (r, st3) →
      getStaticSensitivityRun ps st = some ((sensMinFold ack : Int), st3)) := by
  refine ⟨?_, ?_, ?_⟩
  · intro ack
    have hle : sensMinFold ack ≤ 100 := minLoop_le_acc ack 14 10 100
    have helem : ∀ k, k < 14 → sensMinFold ack ≤ ack.getD (10 + k) 0 :=
      fun k hk => minLoop_le_elem ack 14 10 100 k hk
    have hatt : sensMinFold ack = 100 ∨
        ∃ k, k < 14 ∧ sensMinFold ack = ack.getD (10 + k) 0 :=
      minLoop_attained ack 14 10 100
    refine ⟨hle, helem, hatt, ?_⟩
    intro hbig
    rcases hatt with h | ⟨k, hk, hv⟩
    · exact h
    · have := hbig k hk
      omega
  · intro ps st st1 ack st2 r st3 h1 h2 h3 h4
    simp only [getMotionSensitivityRun, h1, h2, if_pos h3, h4]
  · intro ps st st1 ack st2 r st3 h1 h2 h3 h4
    simp only [getStaticSensitivityRun, h1, h2, if_pos h3, h4]

/-- Receive script for the sensitivity witness: the command ack batch is a
short read whose captured prefix has status byte 0 and gate byte 7 at
offset 10 (remaining gate bytes stay 0 from the initial buffer). -/
def wsC : WireState := ⟨[], [[], [0, 0, 0, 0, 0, 0, 0, 0, 0, 0, 7], []], List.replicate 32 0⟩

/-- State after the enable-config exchange in the C10 witness session. -/
def wsC1 : WireState :=
  ⟨[253, 252, 251, 250, 2, 0, 255, 0, 4, 3, 2, 1],
   [[0, 0, 0, 0, 0, 0, 0, 0, 0, 0, 7], []], List.replicate 32 0⟩

/-- The capture buffer after the short-read command ack in the C10 witness. -/
def ackC : List Nat := [0, 0, 0, 0, 0, 0, 0, 0, 0, 0, 7] ++ List.replicate 21 0

/-- State after the command exchange in the C10 witness session. -/
def wsC2 : WireState :=
  ⟨[253, 252, 251, 250, 2, 0, 255, 0, 4, 3, 2, 1] ++
    [253, 252, 251, 250, 2, 0, 19, 0, 4, 3, 2, 1], [[]], ackC⟩

/-- State after the disable-config exchange in the C10 witness session. -/
def wsC3 : WireState :=
  ⟨([253, 252, 251, 250, 2, 0, 255, 0, 4, 3, 2, 1] ++
    [253, 252, 251, 250, 2, 0, 19, 0, 4, 3, 2, 1]) ++
    [253, 252, 251, 250, 2, 0, 254, 0, 4, 3, 2, 1], [], ackC⟩

/-- Witness for C10: a concrete session returning the capped minimum 0. -/
theorem sensitivity_min_capped_at_100_witness :
    ∃ stf, getMotionSensitivityRun 2 wsC = some (0, stf) :=
  ⟨wsC3, sensitivity_min_capped_at_100.2.1 2 wsC wsC1 ackC wsC2 true wsC3
    (by decide) (by decide) (by decide) (by decide)⟩

/-! ## readSerial

`bool LD2412::readSerial()` captures one 21-byte telemetry frame.  The
capture window `this->buffer` is modelled as a function `Nat → Nat`; one
byte is consumed per iteration of the inner `for (i=0; i<21; i++)` loop.
On a header mismatch the source sets `i = -1`, so the loop increment
restarts capture at position 0 with the NEXT byte; on a footer mismatch it
returns `false`.  The outer `while (available && i < 21)` runs the for loop
at most once (after the loop `i == 21`), and if no byte is available at
entry the function skips capture entirely, refreshes the timestamp, copies
the stale window into `serialBuffer` and returns `true`. -/
def updB (buf : Nat → Nat) (i v : Nat) : Nat → Nat :=
  fun j => if j = i then v else buf j

/-- One iteration of the capture loop at position `i` receiving byte `b`:
`some (buf2, 0)` after a header mismatch (restart), `none` for the
`return false` on footer mismatch, `some (buf2, i+1)` on acceptance. -/
def rsStep (buf : Nat → Nat) (i b : Nat) : Option ((Nat → Nat) × Nat) :=
  let buf2 := updB buf i b
  if buf2 0 ≠ 0xF4 ∨ (0 < i ∧ buf2 1 ≠ 0xF3) ∨ (1 < i ∧ buf2 2 ≠ 0xF2) ∨
      (2 < i ∧ buf2 3 ≠ 0xF1) then
    some (buf2, 0)
  else if (16 < i ∧ buf2 17 ≠ 0xF8) ∨ (17 < i ∧ buf2 18 ≠ 0xF7) ∨
      (18 < i ∧ buf2 19 ≠ 0xF6) ∨ (19 < i ∧ buf2 20 ≠ 0xF5) then
    none
  else
    some (buf2, i + 1)

/-- Result of running the for loop on the remaining input bytes. -/
inductive RSResult
  | completed (buf : Nat → Nat) (rest : List Nat)
  | failed

/-- The capture loop over the available byte stream.  If the stream runs dry
mid-frame the hardware `read()` yields `0xFF` bytes that can never complete a
frame, so the attempt ends in the timeout `return false`: `.failed`. -/
def rsFor : List Nat → Nat → (Nat → Nat) → RSResult
  | [], _, _ => .failed
  | b :: rest, i, buf =>
    match rsStep buf i b with
    | none => .failed
    | some (buf2, i2) =>
      if i2 = 21 then .completed buf2 rest else rsFor rest i2 buf2

/-- `readSerial` on its first call (`serialLastRead == NULL`): `some f` means
`return true` with `f` copied into `serialBuffer`; `none` means
`return false`.  With no byte available the while loop is skipped and the
stale window is copied and reported as success. -/
def readSerialRun (stream : List Nat) (buf : Nat → Nat) : Option (Nat → Nat) :=
  if stream = [] then some buf
  else
    match rsFor stream 0 buf with
    | .completed f _ => some f
    | .failed => none

/-- `serialBuffer[9] + (serialBuffer[10] << 8)` of `movingDistance`. -/
def movingDistVal (f : Nat → Nat) : Nat := f 9 + (f 10 <<< 8)

/-- `serialBuffer[12] + (serialBuffer[13] << 8)` of `staticDistance`. -/
def staticDistVal (f : Nat → Nat) : Nat := f 12 + (f 13 <<< 8)

/-- `int LD2412::targetState()`. -/
def targetStateRun (stream : List Nat) (buf : Nat → Nat) : Int :=
  match readSerialRun stream buf with
  | none => -1
  | some f => (f 8 : Int)

/-- `int LD2412::movingDistance()`. -/
def movingDistanceRun (stream : List Nat) (buf : Nat → Nat) : Int :=
  match readSerialRun stream buf with
  | none => -1
  | some f => (movingDistVal f : Int)

/-- `int LD2412::movingEnergy()`. -/
def movingEnergyRun (stream : List Nat) (buf : Nat → Nat) : Int :=
  match readSerialRun stream buf with
  | none => -1
  | some f => (f 11 : Int)

/-- `int LD2412::staticDistance()`. -/
def staticDistanceRun (stream : List Nat) (buf : Nat → Nat) : Int :=
  match readSerialRun stream buf with
  | none => -1
  | some f => (staticDistVal f : Int)

/-- `int LD2412::staticEnergy()`. -/
def staticEnergyRun (stream : List Nat) (buf : Nat → Nat) : Int :=
  match readSerialRun stream buf with
  | none => -1
  | some f => (f 14 : Int)

theorem getD_cons4 (a b c d : Nat) (l : List Nat) (j : Nat) (h : 4 ≤ j) :
    (a :: b :: c :: d :: l).getD j 0 = l.getD (j - 4) 0 := by
  rcases j with _ | _ | _ | _ | k
  · omega
  · omega
  · omega
  · omega
  · simp only [List.getD_cons_succ]
    congr 1

/-- Running the payload and footer phase: from an accepted header at
positions 0-3 and position `4 ≤ i`, feeding the remaining payload bytes and
the correct footer completes the frame, consuming the whole stream. -/
theorem rsFor_fill (p : List Nat) : ∀ (i : Nat) (buf : Nat → Nat),
    4 ≤ i → i + p.length = 17 →
    buf 0 = 0xF4 → buf 1 = 0xF3 → buf 2 = 0xF2 → buf 3 = 0xF1 →
    ∃ f, rsFor (p ++ [0xF8, 0xF7, 0xF6, 0xF5]) i buf = .completed f [] ∧
      (∀ j, j < i → f j = buf j) ∧
      (∀ j, i ≤ j → j < 21 →
        f j = (p ++ [0xF8, 0xF7, 0xF6, 0xF5]).getD (j - i) 0) := by
  induction p with
  | nil =>
    intro i buf h4 hlen hb0 hb1 hb2 hb3
    have hi : i = 17 := by simpa using hlen
    subst hi
    refine ⟨updB (updB (updB (updB buf 17 0xF8) 18 0xF7) 19 0xF6) 20 0xF5,
      ?_, ?_, ?_⟩
    · simp [rsFor, rsStep, updB, hb0, hb1, hb2, hb3]
    · intro j hj
      simp only [updB]
      rw [if_neg (by omega), if_neg (by omega), if_neg (by omega),
        if_neg (by omega)]
    · intro j hj1 hj2
      have : j = 17 ∨ j = 18 ∨ j = 19 ∨ j = 20 := by omega
      rcases this with rfl | rfl | rfl | rfl <;> simp [updB]
  | cons x xs ih =>
    intro i buf h4 hlen hb0 hb1 hb2 hb3
    have hi : i ≤ 16 := by
      simp only [List.length_cons] at hlen
      omega
    have e0 : updB buf i x 0 = 0xF4 := by
      simp only [updB]; rw [if_neg (by omega)]; exact hb0
    have e1 : updB buf i x 1 = 0xF3 := by
      simp only [updB]; rw [if_neg (by omega)]; exact hb1
    have e2 : updB buf i x 2 = 0xF2 := by
      simp only [updB]; rw [if_neg (by omega)]; exact hb2
    have e3 : updB buf i x 3 = 0xF1 := by
      simp only [updB]; rw [if_neg (by omega)]; exact hb3
    have hH : ¬(updB buf i x 0 ≠ 0xF4 ∨ (0 < i ∧ updB buf i x 1 ≠ 0xF3) ∨
        (1 < i ∧ updB buf i x 2 ≠ 0xF2) ∨ (2 < i ∧ updB buf i x 3 ≠ 0xF1)) := by
      simp [e0, e1, e2, e3]
    have hF : ¬((16 < i ∧ updB buf i x 17 ≠ 0xF8) ∨
        (17 < i ∧ updB buf i x 18 ≠ 0xF7) ∨ (18 < i ∧ updB buf i x 19 ≠ 0xF6) ∨
        (19 < i ∧ updB buf i x 20 ≠ 0xF5)) := by
      intro h
      rcases h with ⟨h1, _⟩ | ⟨h1, _⟩ | ⟨h1, _⟩ | ⟨h1, _⟩ <;> omega
    have hstep : rsStep buf i x = some (updB buf i x, i + 1) := by
      simp only [rsStep]
      rw [if_neg hH, if_neg hF]
    have hrun : rsFor ((x :: xs) ++ [0xF8, 0xF7, 0xF6, 0xF5]) i buf =
        rsFor (xs ++ [0xF8, 0xF7, 0xF6, 0xF5]) (i + 1) (updB buf i x) := by
      rw [List.cons_append]
      simp only [rsFor, hstep]
      rw [if_neg (by omega)]
    obtain ⟨f, hc, hlow, hmid⟩ := ih (i + 1) (updB buf i x) (by omega)
      (by simp only [List.length_cons] at hlen; omega) e0 e1 e2 e3
    refine ⟨f, by rw [hrun]; exact hc, ?_, ?_⟩
    · intro j hj
      rw [hlow j (by omega)]
      simp only [updB]
      rw [if_neg (by omega)]
    · intro j hj1 hj2
      rcases Nat.eq_or_lt_of_le hj1 with heq | hlt
      · rw [← heq, hlow i (by omega)]
        simp [updB]
      · rw [hmid j (by omega) hj2]
        have hd : j - i = (j - (i + 1)) + 1 := by omega
        rw [hd, List.cons_append, List.getD_cons_succ]

/-- Feeding a correct header, any 13 payload bytes and the correct footer
from the seeking state completes exactly one 21-byte frame equal to the
input, consuming the whole stream. -/
theorem rsFor_telemetry_frame (p : List Nat) (buf : Nat → Nat)
    (hp : p.length = 13) :
    ∃ f, rsFor ([0xF4, 0xF3, 0xF2, 0xF1] ++ p ++ [0xF8, 0xF7, 0xF6, 0xF5])
        0 buf = .completed f [] ∧
      ∀ j, j < 21 →
        f j = (([0xF4, 0xF3, 0xF2, 0xF1] : List Nat) ++ p ++
          [0xF8, 0xF7, 0xF6, 0xF5]).getD j 0 := by
  have h1 : rsStep buf 0 0xF4 = some (updB buf 0 0xF4, 1) := by
    simp [rsStep, updB]
  have h2 : rsStep (updB buf 0 0xF4) 1 0xF3 =
      some (updB (updB buf 0 0xF4) 1 0xF3, 2) := by
    simp [rsStep, updB]
  have h3 : rsStep (updB (updB buf 0 0xF4) 1 0xF3) 2 0xF2 =
      some (updB (updB (updB buf 0 0xF4) 1 0xF3) 2 0xF2, 3) := by
    simp [rsStep, updB]
  have h4 : rsStep (updB (updB (updB buf 0 0xF4) 1 0xF3) 2 0xF2) 3 0xF1 =
      some (updB (updB (updB (updB buf 0 0xF4) 1 0xF3) 2 0xF2) 3 0xF1, 4) := by
    simp [rsStep, updB]
  have hs : ([0xF4, 0xF3, 0xF2, 0xF1] : List Nat) ++ p ++ [0xF8, 0xF7, 0xF6, 0xF5] =
      0xF4 :: 0xF3 :: 0xF2 :: 0xF1 :: (p ++ [0xF8, 0xF7, 0xF6, 0xF5]) := by
    simp
  have hrun : rsFor ([0xF4, 0xF3, 0xF2, 0xF1] ++ p ++ [0xF8, 0xF7, 0xF6, 0xF5])
      0 buf = rsFor (p ++ [0xF8, 0xF7, 0xF6, 0xF5]) 4
        (updB (updB (updB (updB buf 0 0xF4) 1 0xF3) 2 0xF2) 3 0xF1) := by
    rw [hs]
    simp [rsFor, h1, h2, h3, h4]
  obtain ⟨f, hc, hlow, hmid⟩ := rsFor_fill p 4
    (updB (updB (updB (updB buf 0 0xF4) 1 0xF3) 2 0xF2) 3 0xF1)
    (by omega) (by omega) (by simp [updB]) (by simp [updB]) (by simp [updB])
    (by simp [updB])
  refine ⟨f, by rw [hrun]; exact hc, ?_⟩
  intro j hj
  rcases Nat.lt_or_ge j 4 with hj4 | hj4
  · rw [hlow j (by omega)]
    have : j = 0 ∨ j = 1 ∨ j = 2 ∨ j = 3 := by omega
    rcases this with rfl | rfl | rfl | rfl <;> simp [updB]
  · rw [hmid j (by omega) hj]
    rw [hs, getD_cons4 _ _ _ _ _ j hj4]

/-- C4: the resynchronisation behaviour of the telemetry capture loop.
(1) Feeding the corrupted prefix `F4 F3 00 F1` discards all progress: the
run continues exactly as the run on the remaining bytes from position 0, so
no completed frame can contain that prefix.  (2) Feeding a correct header,
any 13 payload bytes and the correct footer completes exactly one 21-byte
frame equal to the input and `readSerial` reports it.  (3) Every capture
step preserves the invariant that the captured bytes so far begin with a
correct prefix of the header. -/
theorem readSerial_resync_and_capture :
    (∀ (s : List Nat) (buf : Nat → Nat),
      rsFor ([0xF4, 0xF3, 0x00, 0xF1] ++ s) 0 buf =
        rsFor s 0 (updB (updB (updB (updB buf 0 0xF4) 1 0xF3) 2 0) 0 0xF1)) ∧
    (∀ (p : List Nat) (buf : Nat → Nat), p.length = 13 →
      ∃ f, rsFor ([0xF4, 0xF3, 0xF2, 0xF1] ++ p ++ [0xF8, 0xF7, 0xF6, 0xF5])
          0 buf = .completed f [] ∧
        readSerialRun ([0xF4, 0xF3, 0xF2, 0xF1] ++ p ++
          [0xF8, 0xF7, 0xF6, 0xF5]) buf = some f ∧
        ∀ j, j < 21 →
          f j = (([0xF4, 0xF3, 0xF2, 0xF1] : List Nat) ++ p ++
            [0xF8, 0xF7, 0xF6, 0xF5]).getD j 0) ∧
    (∀ (buf : Nat → Nat) (i b : Nat) (buf2 : Nat → Nat) (i2 : Nat),
      (∀ j, j < min i 4 → buf j = ([0xF4, 0xF3, 0xF2, 0xF1] : List Nat).getD j 0) →
      rsStep buf i b = some (buf2, i2) →
      ∀ j, j < min i2 4 →
        buf2 j = ([0xF4, 0xF3, 0xF2, 0xF1] : List Nat).getD j 0) := by
  refine ⟨?_, ?_, ?_⟩
  · intro s buf
    simp [rsFor, rsStep, updB, List.cons_append]
  · intro p buf hp
    obtain ⟨f, hc, hall⟩ := rsFor_telemetry_frame p buf hp
    refine ⟨f, hc, ?_, hall⟩
    simp only [readSerialRun]
    rw [if_neg (by simp), hc]
  · intro buf i b buf2 i2 hinv hstep j hj
    simp only [rsStep] at hstep
    by_cases hH : updB buf i b 0 ≠ 0xF4 ∨ (0 < i ∧ updB buf i b 1 ≠ 0xF3) ∨
        (1 < i ∧ updB buf i b 2 ≠ 0xF2) ∨ (2 < i ∧ updB buf i b 3 ≠ 0xF1)
    · rw [if_pos hH] at hstep
      obtain ⟨rfl, rfl⟩ : buf2 = updB buf i b ∧ i2 = 0 := by
        simpa [eq_comm] using hstep
      omega
    · rw [if_neg hH] at hstep
      by_cases hF : (16 < i ∧ updB buf i b 17 ≠ 0xF8) ∨
          (17 < i ∧ updB buf i b 18 ≠ 0xF7) ∨ (18 < i ∧ updB buf i b 19 ≠ 0xF6) ∨
          (19 < i ∧ updB buf i b 20 ≠ 0xF5)
      · rw [if_pos hF] at hstep
        exact absurd hstep (by simp)
      · rw [if_neg hF] at hstep
        obtain ⟨rfl, rfl⟩ : buf2 = updB buf i b ∧ i2 = i + 1 := by
          simpa [eq_comm] using hstep
        push_neg at hH
        obtain ⟨c0, c1, c2, c3⟩ := hH
        have hj4 : j < 4 := lt_of_lt_of_le hj (Nat.min_le_right _ _)
        have hji : j < i + 1 := lt_of_lt_of_le hj (Nat.min_le_left _ _)
        have : j = 0 ∨ j = 1 ∨ j = 2 ∨ j = 3 := by omega
        rcases this with rfl | rfl | rfl | rfl
        · exact c0
        · exact c1 (by omega)
        · exact c2 (by omega)
        · exact c3 (by omega)

/-- Witness for C4: the concrete frame with 13 payload bytes `5`, and the
invariant applied to the very first accepted byte. -/
theorem readSerial_resync_and_capture_witness :
    (∃ f, readSerialRun ([0xF4, 0xF3, 0xF2, 0xF1] ++ List.replicate 13 5 ++
      [0xF8, 0xF7, 0xF6, 0xF5]) (fun _ => 0) = some f ∧ f 8 = 5) ∧
    updB (fun _ => 0) 0 0xF4 0 = 0xF4 := by
  constructor
  · obtain ⟨f, _, h2, h3⟩ := readSerial_resync_and_capture.2.1
      (List.replicate 13 5) (fun _ => 0) (by decide)
    refine ⟨f, h2, ?_⟩
    rw [h3 8 (by omega)]
    rfl
  · exact readSerial_resync_and_capture.2.2 (fun _ => 0) 0 0xF4
      (updB (fun _ => 0) 0 0xF4) 1 (by intro j hj; omega) rfl 0 (by omega)

/-- C7: refuted as stated — on the very first call with no bytes available,
`readSerial` skips the capture loop and returns `true` with the stale
window copied into `serialBuffer`, so every telemetry accessor returns a
value derived from the uninitialised buffer (a byte cast, hence
nonnegative), never the `-1` Failure the claim requires. -/
theorem telemetry_accessors_succeed_on_empty_stream (buf : Nat → Nat) :
    readSerialRun [] buf = some buf ∧
    targetStateRun [] buf = (buf 8 : Int) ∧
    targetStateRun [] buf ≠ -1 ∧
    movingDistanceRun [] buf ≠ -1 ∧
    movingEnergyRun [] buf ≠ -1 ∧
    staticDistanceRun [] buf ≠ -1 ∧
    staticEnergyRun [] buf ≠ -1 := by
  refine ⟨rfl, rfl, ?_, ?_, ?_, ?_, ?_⟩ <;>
    simp [targetStateRun, movingDistanceRun, movingEnergyRun,
      staticDistanceRun, staticEnergyRun, readSerialRun]

/-- `serialBuffer[9] + serialBuffer[10] << 2` of the other revision's
`movingDistance`: `+` binds tighter than `<<` in C++, so this is the byte
sum shifted left by 2, a value scaled by 4. -/
def movingDistValLegacy (f : Nat → Nat) : Nat := (f 9 + f 10) <<< 2

/-- `serialBuffer[12] + serialBuffer[13] << 2` of the other revision's
`staticDistance`: the byte sum shifted left by 2. -/
def staticDistValLegacy (f : Nat → Nat) : Nat := (f 12 + f 13) <<< 2

/-- The other revision's `int LD2412::movingDistance()`. -/
def movingDistanceLegacyRun (stream : List Nat) (buf : Nat → Nat) : Int :=
  match readSerialRun stream buf with
  | none => -1
  | some f => (movingDistValLegacy f : Int)

/-- The other revision's `int LD2412::staticDistance()`. -/
def staticDistanceLegacyRun (stream : List Nat) (buf : Nat → Nat) : Int :=
  match readSerialRun stream buf with
  | none => -1
  | some f => (staticDistValLegacy f : Int)

/-- The cached frame with moving-distance bytes low = 1, high = 1. -/
def demoFrame : Nat → Nat := fun j => if j = 9 then 1 else if j = 10 then 1 else 0

/-- C9: only partly true of the sources.  The current LD2412.cpp computes
`serialBuffer[9] + (serialBuffer[10] << 8)`, the little-endian combine
`low + 256 * high` (same at offsets 12/13 for `staticDistance`), as the claim
states; but the repository's other revision of the accessors computes
`serialBuffer[9] + serialBuffer[10] << 2`, which by C++ precedence is
`(low + high) << 2`, exactly the scaled-by-4 shift of the byte sum that the
claim denies: on distance bytes 1,1 it returns 8 where the documented
combine gives 257. -/
theorem distance_little_endian_combine :
    (∀ f : Nat → Nat, movingDistVal f = f 9 + 256 * f 10 ∧
      staticDistVal f = f 12 + 256 * f 13) ∧
    (∀ f : Nat → Nat, movingDistValLegacy f = (f 9 + f 10) * 4 ∧
      staticDistValLegacy f = (f 12 + f 13) * 4) ∧
    (∀ (stream : List Nat) (buf : Nat → Nat) (f : Nat → Nat),
      readSerialRun stream buf = some f →
      movingDistanceRun stream buf = (movingDistVal f : Int) ∧
      staticDistanceRun stream buf = (staticDistVal f : Int) ∧
      movingDistanceLegacyRun stream buf = (movingDistValLegacy f : Int) ∧
      staticDistanceLegacyRun stream buf = (staticDistValLegacy f : Int)) ∧
    (movingDistVal demoFrame = 257 ∧ movingDistValLegacy demoFrame = 8 ∧
      (257 : Nat) ≠ 8) := by
  refine ⟨?_, ?_, ?_, by decide, by decide, by decide⟩
  · intro f
    constructor <;> simp [movingDistVal, staticDistVal, Nat.shiftLeft_eq] <;> ring
  · intro f
    constructor <;>
      simp [movingDistValLegacy, staticDistValLegacy, Nat.shiftLeft_eq]
  · intro stream buf f h
    refine ⟨?_, ?_, ?_, ?_⟩ <;>
      simp only [movingDistanceRun, staticDistanceRun, movingDistanceLegacyRun,
        staticDistanceLegacyRun, h]

/-- Witness for C9: both revisions' accessors on a concrete all-3 cached
window: the little-endian combine gives 771, the legacy shift gives 24. -/
theorem distance_little_endian_combine_witness :
    movingDistanceRun [] (fun _ => 3) = 771 ∧
    movingDistanceLegacyRun [] (fun _ => 3) = 24 :=
  ⟨(distance_little_endian_combine.2.2.1 [] (fun _ => 3) (fun _ => 3) rfl).1,
   (distance_little_endian_combine.2.2.1 [] (fun _ => 3) (fun _ => 3) rfl).2.2.1⟩

end LD2412
